import Mathlib

/-!
Verification development for the Smart-inventory-System backend.

Shallow embedding of the FastAPI/SQLAlchemy backend:
  - `Backend/models.py`   : the `User`, `Product`, `Sale` tables,
  - `Backend/routers/sales.py` : `create_sale`, `delete_sale`, `get_sales_analytics`,
  - `Backend/routers/users.py` : `login`.

The relational store is modelled as lists of rows held in an `InventoryState`;
a request-scoped session that either commits all its writes or raises before
any write is modelled as a pure function returning the response together with
the post-commit state (the pre-state when the handler raised).  Python's
`datetime` values (UTC, timezone-aware) are modelled by the civil record
`PyDateTime`; chronological comparison and `timedelta` arithmetic go through
the absolute microsecond count `PyDateTime.toAbs` computed with the standard
Gregorian day-number conversion, which is exactly how aware-UTC datetimes
compare and add in Python.  SQL `Float` columns are modelled as exact
rationals and `Integer` columns as `Int`.
-/

namespace SmartInventory

/-- A Python `datetime` (UTC): civil fields, as stored and compared. -/
structure PyDateTime where
  year : Int
  month : Int
  day : Int
  hour : Int
  minute : Int
  second : Int
  microsecond : Int
deriving DecidableEq, Repr

/-- Days since the Unix epoch of a Gregorian civil date (the standard
`days_from_civil` conversion, with floor division; this is the day-number
arithmetic underlying Python's `datetime`/`timedelta`). -/
def daysFromCivil (y m d : Int) : Int :=
  let y2 := if m ≤ 2 then y - 1 else y
  let era := Int.ediv y2 400
  let yoe := y2 - era * 400
  let mp := if 2 < m then m - 3 else m + 9
  let doy := Int.ediv (153 * mp + 2) 5 + d - 1
  let doe := yoe * 365 + Int.ediv yoe 4 - Int.ediv yoe 100 + doy
  era * 146097 + doe - 719468

/-- Microseconds per day. -/
def usPerDay : Int := 86400000000

/-- Absolute time in microseconds since the Unix epoch.  Two aware-UTC
Python datetimes compare exactly as their `toAbs` values, and adding a
`timedelta` adds its microsecond count to `toAbs`. -/
def PyDateTime.toAbs (t : PyDateTime) : Int :=
  (daysFromCivil t.year t.month t.day * 86400 + t.hour * 3600 + t.minute * 60
    + t.second) * 1000000 + t.microsecond

/-- `now.replace(hour=0, minute=0, second=0, microsecond=0)` from
`get_sales_analytics`. -/
def todayStart (now : PyDateTime) : PyDateTime :=
  { now with hour := 0, minute := 0, second := 0, microsecond := 0 }

/-- `now.replace(day=1, hour=0, minute=0, second=0, microsecond=0)` from
`get_sales_analytics`. -/
def monthStart (now : PyDateTime) : PyDateTime :=
  { now with day := 1, hour := 0, minute := 0, second := 0, microsecond := 0 }

/-- The time-of-day fields of a real clock reading are in range. -/
def ValidClock (t : PyDateTime) : Prop :=
  0 ≤ t.hour ∧ t.hour < 24 ∧ 0 ≤ t.minute ∧ t.minute < 60 ∧
    0 ≤ t.second ∧ t.second < 60 ∧ 0 ≤ t.microsecond ∧ t.microsecond < 1000000

instance (t : PyDateTime) : Decidable (ValidClock t) := by
  unfold ValidClock; infer_instance

/-- Row of the `users` table (`models.User`). -/
structure User where
  id : Nat
  username : String
  email : String
  password_hash : String
  role : String
deriving DecidableEq, Repr

/-- Row of the `products` table (`models.Product`). -/
structure Product where
  id : Nat
  name : String
  description : Option String
  price : ℚ
  quantity : Int
deriving DecidableEq, Repr

/-- Row of the `sales` table (`models.Sale`); `sale_date` defaults to
`datetime.now(timezone.utc)` at insert time. -/
structure Sale where
  id : Nat
  product_id : Nat
  quantity : Int
  total_price : ℚ
  sale_date : PyDateTime
deriving DecidableEq, Repr

/-- Request body of `POST /sales/` (`schemas.SaleCreate`); upstream
validation enforces `product_id ≥ 1`, `quantity ≥ 1`, `total_price ≥ 0`. -/
structure SaleCreate where
  product_id : Nat
  quantity : Int
  total_price : ℚ
deriving DecidableEq, Repr

/-- An `HTTPException`: status code and human-readable detail. -/
structure HTTPError where
  status_code : Nat
  detail : String
deriving DecidableEq, Repr

/-- The relational store: one list of rows per table, plus the
autoincrement counter that generates the next Sale primary key. -/
structure InventoryState where
  users : List User
  products : List Product
  sales : List Sale
  nextSaleId : Nat
deriving DecidableEq, Repr

/-- Autoincrement primary-key invariant of the `sales` table: every stored
id is below the generator. -/
def saleIdsFresh (st : InventoryState) : Prop :=
  ∀ s ∈ st.sales, s.id < st.nextSaleId

instance (st : InventoryState) : Decidable (saleIdsFresh st) := by
  unfold saleIdsFresh; infer_instance

/-- Mutating the single ORM object returned by `query(...).first()`:
apply `f` to the first row whose id matches, leave every other row alone. -/
def updateFirstProduct : List Product → Nat → (Product → Product) → List Product
  | [], _, _ => []
  | p :: ps, pid, f =>
    if p.id = pid then f p :: ps else p :: updateFirstProduct ps pid f

/-- `db.delete(sale)`: remove the row with the given primary key. -/
def removeFirstSale : List Sale → Nat → List Sale
  | [], _ => []
  | s :: rest, sid => if s.id = sid then rest else s :: removeFirstSale rest sid

/-- `POST /sales/` (`create_sale` in `routers/sales.py`): look the product
up, reject with 404 when absent and with 400 when stock is short, otherwise
deduct the quantity, insert the Sale row (its `sale_date` is `now`), and
commit both writes together. -/
def create_sale (st : InventoryState) (req : SaleCreate) (now : PyDateTime) :
    Except HTTPError Sale × InventoryState :=
  match st.products.find? (fun p => p.id == req.product_id) with
  | none => (.error ⟨404, "Product not found"⟩, st)
  | some product =>
    if product.quantity < req.quantity then
      (.error ⟨400, "Insufficient quantity. Available: " ++ toString product.quantity⟩, st)
    else
      let newSale : Sale :=
        { id := st.nextSaleId, product_id := req.product_id,
          quantity := req.quantity, total_price := req.total_price,
          sale_date := now }
      (.ok newSale,
        { st with
          products := updateFirstProduct st.products req.product_id
            (fun p => { p with quantity := p.quantity - req.quantity })
          sales := st.sales ++ [newSale]
          nextSaleId := st.nextSaleId + 1 })

/-- `DELETE /sales/{sale_id}` (`delete_sale` in `routers/sales.py`): 404
when the sale is absent; otherwise restore the recorded quantity to the
product when it still exists (silently skip when it does not) and remove
the Sale row. -/
def delete_sale (st : InventoryState) (sale_id : Nat) :
    Except HTTPError String × InventoryState :=
  match st.sales.find? (fun s => s.id == sale_id) with
  | none => (.error ⟨404, "Sale not found"⟩, st)
  | some sale =>
    let products' :=
      match st.products.find? (fun p => p.id == sale.product_id) with
      | none => st.products
      | some _ =>
        updateFirstProduct st.products sale.product_id
          (fun p => { p with quantity := p.quantity + sale.quantity })
    (.ok "Sale deleted and inventory restored",
      { st with products := products', sales := removeFirstSale st.sales sale_id })

/-- The JWT returned by `login`, modelled by the claims its payload
carries (`sub` = email, `role`; signing with the process secret and the
60-minute expiry stamp are external to the store). -/
structure TokenResponse where
  sub : String
  role : String
  token_type : String
deriving DecidableEq, Repr

/-- `POST /users/login` (`login` in `routers/users.py`), parametrised by
the bcrypt verifier `verify` (external `auth.verify_password`): look the
user up by email, reject unknown email and failed verification with the
same 400 response, otherwise issue the token. -/
def login (users : List User) (verify : String → String → Bool)
    (email password : String) : Except HTTPError TokenResponse :=
  match users.find? (fun u => u.email == email) with
  | none => .error ⟨400, "Invalid credentials"⟩
  | some db_user =>
    if verify password db_user.password_hash then
      .ok { sub := db_user.email, role := db_user.role, token_type := "bearer" }
    else
      .error ⟨400, "Invalid credentials"⟩

/-- `SUM(total_price)` with `COALESCE(..., 0)`: the empty sum is 0. -/
def sumPrice (l : List Sale) : ℚ :=
  (l.map (fun s => s.total_price)).sum

/-- `SUM(quantity)` of the sales of one product. -/
def totalQty (sales : List Sale) (pid : Nat) : Int :=
  ((sales.filter (fun s => s.product_id == pid)).map (fun s => s.quantity)).sum

/-- Accumulate a product id into the `GROUP BY product_id` key list,
first occurrence fixing the position. -/
def insertPid (acc : List Nat) (pid : Nat) : List Nat :=
  if pid ∈ acc then acc else acc ++ [pid]

/-- The `GROUP BY product_id` keys in storage order (first-seen order of
the Sale rows). -/
def distinctPids (sales : List Sale) : List Nat :=
  sales.foldl (fun acc s => insertPid acc s.product_id) []

/-- One step of scanning the grouped rows for the maximal
`SUM(quantity)`; a strictly greater total displaces the current best, so
the first-seen group wins ties. -/
def topStep (sales : List Sale) (best : Option (Nat × Int)) (pid : Nat) :
    Option (Nat × Int) :=
  match best with
  | none => some (pid, totalQty sales pid)
  | some (bp, bq) =>
    if bq < totalQty sales pid then some (pid, totalQty sales pid)
    else some (bp, bq)

/-- `query(product_id, SUM(quantity)).group_by(product_id).order_by(SUM
DESC).first()`: the grouped row with the maximal total quantity, `none`
when there are no Sale rows. -/
def topRow (sales : List Sale) : Option (Nat × Int) :=
  (distinctPids sales).foldl (topStep sales) none

/-- Resolve a product name through the products table at query time,
`"Unknown"` when the product row is gone. -/
def resolveName (products : List Product) (pid : Nat) : String :=
  match products.find? (fun p => p.id == pid) with
  | some p => p.name
  | none => "Unknown"

/-- The `top_selling_product` object of the analytics payload. -/
structure TopProduct where
  id : Nat
  name : String
  total_quantity_sold : Int
deriving DecidableEq, Repr

/-- One entry of `daily_sales_chart`.  The payload's `date` field is the
`"%b %d"` rendering of the day's start; the entry is identified here by
that day start (absolute microseconds), which determines the label. -/
structure ChartEntry where
  dayStart : Int
  revenue : ℚ
deriving DecidableEq, Repr

/-- Response of `GET /sales/analytics`. -/
structure AnalyticsResult where
  daily_revenue : ℚ
  monthly_revenue : ℚ
  top_selling_product : Option TopProduct
  daily_sales_chart : List ChartEntry
deriving DecidableEq, Repr

/-- The Sale rows with `day_start <= sale_date < day_start + 1 day`
(the chart query's two filters; `ds` is the day start in absolute
microseconds). -/
def chartWindow (sales : List Sale) (ds : Int) : List Sale :=
  sales.filter (fun s =>
    decide (ds ≤ s.sale_date.toAbs) && decide (s.sale_date.toAbs < ds + usPerDay))

/-- `GET /sales/analytics` (`get_sales_analytics` in `routers/sales.py`).
The chart loop `for i in range(6, -1, -1)` builds its day boundaries as
`today_start - timedelta(days=i)`, whose absolute time is
`(todayStart now).toAbs - i * usPerDay`; every datetime comparison in the
queries is chronological, i.e. a comparison of `toAbs` values. -/
def get_sales_analytics (st : InventoryState) (now : PyDateTime) : AnalyticsResult :=
  let today_start := todayStart now
  let month_start := monthStart now
  { daily_revenue :=
      sumPrice (st.sales.filter (fun s => decide (today_start.toAbs ≤ s.sale_date.toAbs)))
    monthly_revenue :=
      sumPrice (st.sales.filter (fun s => decide (month_start.toAbs ≤ s.sale_date.toAbs)))
    top_selling_product :=
      (topRow st.sales).map (fun r =>
        { id := r.1, name := resolveName st.products r.1, total_quantity_sold := r.2 })
    daily_sales_chart :=
      ([6, 5, 4, 3, 2, 1, 0] : List Int).map (fun i =>
        { dayStart := today_start.toAbs - i * usPerDay
          revenue := sumPrice (chartWindow st.sales (today_start.toAbs - i * usPerDay)) }) }

/-- Spec-side day number: the UTC calendar day a datetime falls on,
as days since the epoch.  Used to state "the start of the current UTC
day" claims independently of the `replace`-based computation. -/
def specDayNumber (t : PyDateTime) : Int :=
  daysFromCivil t.year t.month t.day

/-- Spec-side "start of the current UTC month (day 1, 00:00:00)",
built directly from the spec's words rather than by field replacement. -/
def specMonthStart (t : PyDateTime) : PyDateTime :=
  ⟨t.year, t.month, 1, 0, 0, 0, 0⟩

/-! Concrete sample data, used to instantiate the theorems below on
closed inputs. -/

/-- A sample clock reading. -/
def demoNow : PyDateTime := ⟨2026, 10, 12, 15, 30, 0, 0⟩

/-- Sample users table. -/
def demoUsers : List User :=
  [⟨1, "alice", "alice@example.com", "HASH1", "admin"⟩]

/-- Sample products table. -/
def demoProducts : List Product :=
  [⟨1, "Widget", none, 100, 10⟩, ⟨2, "Gadget", some "toy", 3, 4⟩]

/-- Sample sales table: 3 Widgets this morning, 5 Gadgets two days ago. -/
def demoSales : List Sale :=
  [⟨1, 1, 3, 300, ⟨2026, 10, 12, 9, 0, 0, 0⟩⟩,
   ⟨2, 2, 5, 15, ⟨2026, 10, 10, 12, 0, 0, 0⟩⟩]

/-- Sample store. -/
def demoState : InventoryState := ⟨demoUsers, demoProducts, demoSales, 3⟩

/-- A sale request for 4 Widgets. -/
def demoReq : SaleCreate := ⟨1, 4, 400⟩

/-- A sale request against a product id that does not exist. -/
def demoReqMissing : SaleCreate := ⟨99, 1, 5⟩

/-- A sale request for more Widgets than are in stock. -/
def demoReqBig : SaleCreate := ⟨1, 11, 5⟩

/-- The Sale row `create_sale demoState demoReq demoNow` inserts. -/
def demoSaleNew : Sale := ⟨3, 1, 4, 400, demoNow⟩

/-- The store after `create_sale demoState demoReq demoNow`. -/
def demoState1 : InventoryState :=
  ⟨demoUsers,
   [⟨1, "Widget", none, 100, 6⟩, ⟨2, "Gadget", some "toy", 3, 4⟩],
   demoSales ++ [demoSaleNew], 4⟩

/-- A store holding a Sale whose product row is gone (dangling reference). -/
def demoStateOrphan : InventoryState :=
  ⟨demoUsers, demoProducts,
   [⟨7, 99, 2, 50, ⟨2026, 10, 11, 8, 0, 0, 0⟩⟩], 8⟩

/-- A sample bcrypt verifier: accepts exactly the stored hash. -/
def demoVerify (password hash : String) : Bool := password == hash

/-! Helper lemmas about the store primitives. -/

theorem updateFirstProduct_length (l : List Product) (pid : Nat) (f : Product → Product) :
    (updateFirstProduct l pid f).length = l.length := by
  induction l with
  | nil => rfl
  | cons p ps ih =>
    by_cases h : p.id = pid <;> simp [updateFirstProduct, h, ih]

theorem updateFirstProduct_get (l : List Product) (pid : Nat) (f : Product → Product)
    (i : Nat) (h : i < l.length) (h' : i < (updateFirstProduct l pid f).length) :
    (updateFirstProduct l pid f).get ⟨i, h'⟩ = l.get ⟨i, h⟩ ∨
      ((updateFirstProduct l pid f).get ⟨i, h'⟩ = f (l.get ⟨i, h⟩) ∧
        (l.get ⟨i, h⟩).id = pid) := by
  induction l generalizing i with
  | nil => simp at h
  | cons p ps ih =>
    by_cases hp : p.id = pid
    · cases i with
      | zero => right; simp [updateFirstProduct, hp]
      | succ k =>
        left
        have h2 : (updateFirstProduct (p :: ps) pid f) = f p :: ps := by
          simp [updateFirstProduct, hp]
        simp [h2]
    · cases i with
      | zero => left; simp [updateFirstProduct, hp]
      | succ k =>
        have h2 : (updateFirstProduct (p :: ps) pid f) = p :: updateFirstProduct ps pid f := by
          simp [updateFirstProduct, hp]
        have hk : k < ps.length := by simpa using h
        have hk' : k < (updateFirstProduct ps pid f).length := by
          rw [updateFirstProduct_length]; exact hk
        have := ih k hk hk'
        simpa [h2] using this

theorem mem_updateFirstProduct (l : List Product) (pid : Nat) (f : Product → Product)
    (q : Product) (hq : q ∈ updateFirstProduct l pid f) :
    q ∈ l ∨ ∃ p, l.find? (fun x => x.id == pid) = some p ∧ q = f p := by
  induction l with
  | nil => simp [updateFirstProduct] at hq
  | cons p ps ih =>
    by_cases hp : p.id = pid
    · simp [updateFirstProduct, hp] at hq
      rcases hq with hq | hq
      · exact Or.inr ⟨p, List.find?_cons_of_pos _ (by simpa using hp), hq⟩
      · exact Or.inl (by simp [hq])
    · simp [updateFirstProduct, hp] at hq
      rcases hq with hq | hq
      · exact Or.inl (by simp [hq])
      · rcases ih hq with h | ⟨r, hr, hrq⟩
        · exact Or.inl (by simp [h])
        · exact Or.inr ⟨r, by rw [List.find?_cons_of_neg _ (by simpa using hp)]; exact hr, hrq⟩

theorem find?_updateFirstProduct (l : List Product) (pid : Nat) (f : Product → Product)
    (hf : ∀ p, (f p).id = p.id) (P : Product)
    (hP : l.find? (fun p => p.id == pid) = some P) :
    (updateFirstProduct l pid f).find? (fun p => p.id == pid) = some (f P) := by
  induction l with
  | nil => simp at hP
  | cons p ps ih =>
    by_cases hp : p.id = pid
    · have hPp : p = P := by
        rw [List.find?_cons_of_pos _ (by simpa using hp)] at hP
        exact Option.some.inj hP
      have h2 : updateFirstProduct (p :: ps) pid f = f p :: ps := by
        simp [updateFirstProduct, hp]
      rw [h2, List.find?_cons_of_pos _ (by simp [hf p, hp]), hPp]
    · rw [List.find?_cons_of_neg _ (by simpa using hp)] at hP
      have h2 : updateFirstProduct (p :: ps) pid f = p :: updateFirstProduct ps pid f := by
        simp [updateFirstProduct, hp]
      rw [h2, List.find?_cons_of_neg _ (by simpa using hp)]
      exact ih hP

theorem updateFirstProduct_comp (l : List Product) (pid : Nat) (f g : Product → Product)
    (hf : ∀ p, (f p).id = p.id) :
    updateFirstProduct (updateFirstProduct l pid f) pid g
      = updateFirstProduct l pid (fun p => g (f p)) := by
  induction l with
  | nil => rfl
  | cons p ps ih =>
    by_cases hp : p.id = pid
    · simp [updateFirstProduct, hp, hf p]
    · simp [updateFirstProduct, hp, ih]

theorem updateFirstProduct_of_id (l : List Product) (pid : Nat) (f : Product → Product)
    (hf : ∀ p, f p = p) : updateFirstProduct l pid f = l := by
  induction l with
  | nil => rfl
  | cons p ps ih =>
    by_cases hp : p.id = pid <;> simp [updateFirstProduct, hp, hf p, ih]

theorem removeFirstSale_append (l : List Sale) (s : Sale)
    (h : ∀ x ∈ l, x.id ≠ s.id) : removeFirstSale (l ++ [s]) s.id = l := by
  induction l with
  | nil => simp [removeFirstSale]
  | cons x xs ih =>
    have hx : x.id ≠ s.id := h x (by simp)
    simp only [List.cons_append, removeFirstSale, if_neg hx]
    simp [ih (fun y hy => h y (by simp [hy]))]

theorem mem_foldl_insertPid (sales : List Sale) :
    ∀ (acc : List Nat) (x : Nat),
      x ∈ sales.foldl (fun a s => insertPid a s.product_id) acc ↔
        x ∈ acc ∨ ∃ s ∈ sales, s.product_id = x := by
  induction sales with
  | nil => simp
  | cons s rest ih =>
    intro acc x
    rw [List.foldl_cons, ih]
    constructor
    · rintro (hx | hx)
      · by_cases hmem : s.product_id ∈ acc
        · simp [insertPid, hmem] at hx
          exact Or.inl hx
        · simp [insertPid, hmem] at hx
          rcases hx with hx | hx
          · exact Or.inl hx
          · exact Or.inr ⟨s, by simp, hx.symm⟩
      · rcases hx with ⟨t, ht, htx⟩
        exact Or.inr ⟨t, by simp [ht], htx⟩
    · rintro (hx | ⟨t, ht, htx⟩)
      · left
        by_cases hmem : s.product_id ∈ acc <;> simp [insertPid, hmem, hx]
      · rcases List.mem_cons.1 ht with ht | ht
        · left
          have hx : x = s.product_id := by rw [← htx, ht]
          subst hx
          by_cases hmem : s.product_id ∈ acc <;> simp [insertPid, hmem]
        · exact Or.inr ⟨t, ht, htx⟩

theorem mem_distinctPids (sales : List Sale) (x : Nat) :
    x ∈ distinctPids sales ↔ ∃ s ∈ sales, s.product_id = x := by
  rw [distinctPids, mem_foldl_insertPid]
  simp

theorem foldl_insertPid_ne_nil (sales : List Sale) :
    ∀ (acc : List Nat), acc ≠ [] →
      sales.foldl (fun a s => insertPid a s.product_id) acc ≠ [] := by
  induction sales with
  | nil => intro acc h; simpa using h
  | cons s rest ih =>
    intro acc h
    rw [List.foldl_cons]
    apply ih
    by_cases hmem : s.product_id ∈ acc <;> simp [insertPid, hmem, h]

theorem distinctPids_eq_nil_iff (sales : List Sale) :
    distinctPids sales = [] ↔ sales = [] := by
  constructor
  · intro h
    cases sales with
    | nil => rfl
    | cons s rest =>
      exfalso
      have h2 : rest.foldl (fun a s => insertPid a s.product_id)
          (insertPid [] s.product_id) = [] := by
        simpa [distinctPids] using h
      exact foldl_insertPid_ne_nil rest (insertPid [] s.product_id)
        (by simp [insertPid]) h2
  · intro h; simp [h, distinctPids]

theorem topFold_none (sales : List Sale) :
    ∀ (pids : List Nat) (acc : Option (Nat × Int)),
      pids.foldl (topStep sales) acc = none ↔ acc = none ∧ pids = [] := by
  intro pids
  induction pids with
  | nil => simp
  | cons pid rest ih =>
    intro acc
    rw [List.foldl_cons, ih]
    constructor
    · rintro ⟨h1, h2⟩
      exfalso
      cases acc with
      | none => simp [topStep] at h1
      | some b =>
        rcases b with ⟨bp, bq⟩
        by_cases hlt : bq < totalQty sales pid <;> simp [topStep, hlt] at h1
    · rintro ⟨h1, h2⟩
      simp at h2

theorem topFold_some (sales : List Sale) :
    ∀ (pids : List Nat) (acc : Option (Nat × Int)) (p : Nat) (q : Int),
      (∀ a b, acc = some (a, b) → b = totalQty sales a) →
      pids.foldl (topStep sales) acc = some (p, q) →
      q = totalQty sales p ∧
        (∀ x ∈ pids, totalQty sales x ≤ q) ∧
        (∀ a b, acc = some (a, b) → b ≤ q) ∧
        (acc = some (p, q) ∨
          ∃ l₁ l₂, pids = l₁ ++ p :: l₂ ∧
            (∀ x ∈ l₁, totalQty sales x < q) ∧
            (∀ a b, acc = some (a, b) → b < q)) := by
  intro pids
  induction pids with
  | nil =>
    intro acc p q hinv h
    simp at h
    refine ⟨hinv p q h, by simp, ?_, Or.inl h⟩
    intro a b hab
    rw [hab] at h
    exact le_of_eq (congrArg Prod.snd (Option.some.inj h))
  | cons pid rest ih =>
    intro acc p q hinv h
    rw [List.foldl_cons] at h
    have hstep : ∀ a b, topStep sales acc pid = some (a, b) → b = totalQty sales a := by
      intro a b hab
      cases acc with
      | none =>
        simp [topStep] at hab
        rw [← hab.1, ← hab.2]
      | some c =>
        rcases c with ⟨cp, cq⟩
        by_cases hlt : cq < totalQty sales pid
        · simp [topStep, hlt] at hab
          rw [← hab.1, ← hab.2]
        · simp [topStep, hlt] at hab
          rw [← hab.1, ← hab.2]
          exact hinv cp cq rfl
    obtain ⟨hq, hmax, hacc, hsplit⟩ := ih (topStep sales acc pid) p q hstep h
    have hpidle : totalQty sales pid ≤ q := by
      cases acc with
      | none => exact hacc pid (totalQty sales pid) (by simp [topStep])
      | some c =>
        rcases c with ⟨cp, cq⟩
        by_cases hlt : cq < totalQty sales pid
        · exact hacc pid (totalQty sales pid) (by simp [topStep, hlt])
        · exact le_trans (not_lt.1 hlt) (hacc cp cq (by simp [topStep, hlt]))
    refine ⟨hq, ?_, ?_, ?_⟩
    · intro x hx
      rcases List.mem_cons.1 hx with hx | hx
      · exact hx ▸ hpidle
      · exact hmax x hx
    · intro a b hab
      cases acc with
      | none => simp at hab
      | some c =>
        rcases c with ⟨cp, cq⟩
        by_cases hlt : cq < totalQty sales pid
        · have := hacc pid (totalQty sales pid) (by simp [topStep, hlt])
          have hb : b = cq := by cases hab; rfl
          have ha : a = cp := by cases hab; rfl
          subst hb ha
          exact le_trans (le_of_lt hlt) this
        · exact hacc a b (by simpa [topStep, hlt] using hab)
    · -- first-seen location of the winner
      rcases hsplit with hsame | ⟨l₁, l₂, hsplit, hbefore, hstrict⟩
      · -- the winner was already fixed after scanning `pid`
        cases acc with
        | none =>
          simp [topStep] at hsame
          exact Or.inr ⟨[], rest, by simp [hsame.1], by simp, by simp⟩
        | some c =>
          rcases c with ⟨cp, cq⟩
          by_cases hlt : cq < totalQty sales pid
          · simp [topStep, hlt] at hsame
            refine Or.inr ⟨[], rest, by simp [hsame.1], by simp, ?_⟩
            intro a b hab
            have hb : b = cq := by cases hab; rfl
            have ha : a = cp := by cases hab; rfl
            subst hb ha
            exact hsame.2 ▸ hlt
          · simp [topStep, hlt] at hsame
            exact Or.inl (by simp [hsame.1, hsame.2])
      · -- the winner sits inside `rest`
        have hpidlt : totalQty sales pid < q := by
          cases acc with
          | none => exact hstrict pid (totalQty sales pid) (by simp [topStep])
          | some c =>
            rcases c with ⟨cp, cq⟩
            by_cases hlt : cq < totalQty sales pid
            · exact hstrict pid (totalQty sales pid) (by simp [topStep, hlt])
            · exact lt_of_le_of_lt (not_lt.1 hlt)
                (hstrict cp cq (by simp [topStep, hlt]))
        refine Or.inr ⟨pid :: l₁, l₂, by simp [hsplit], ?_, ?_⟩
        · intro x hx
          rcases List.mem_cons.1 hx with hx | hx
          · exact hx ▸ hpidlt
          · exact hbefore x hx
        · intro a b hab
          cases acc with
          | none => simp at hab
          | some c =>
            rcases c with ⟨cp, cq⟩
            by_cases hlt : cq < totalQty sales pid
            · have hb : b = cq := by cases hab; rfl
              have ha : a = cp := by cases hab; rfl
              subst hb ha
              exact lt_trans hlt hpidlt
            · exact hstrict a b (by simpa [topStep, hlt] using hab)

theorem todayStart_toAbs (now : PyDateTime) :
    (todayStart now).toAbs = specDayNumber now * usPerDay := by
  simp only [todayStart, PyDateTime.toAbs, specDayNumber, usPerDay]
  ring

theorem le_todayStart_iff (now s : PyDateTime) (hs : ValidClock s) :
    (todayStart now).toAbs ≤ s.toAbs ↔ specDayNumber now ≤ specDayNumber s := by
  obtain ⟨h1, h2, h3, h4, h5, h6, h7, h8⟩ := hs
  rw [todayStart_toAbs]
  simp only [PyDateTime.toAbs, specDayNumber, usPerDay]
  omega

/-! The claims. -/

/-- C1: for every product `P` and sale request against `P.id` with quantity
`q ≤ P.quantity`, a successful `create_sale` deducts exactly `q` from
`P.quantity`, persists a new Sale carrying the request's `product_id`,
`quantity` and `total_price` with `sale_date` = the current UTC time, and
returns that Sale. -/
theorem create_sale_deducts_and_persists (st : InventoryState) (req : SaleCreate)
    (now : PyDateTime) (P : Product)
    (hP : st.products.find? (fun p => p.id == req.product_id) = some P)
    (hq : req.quantity ≤ P.quantity) :
    ∃ sale st',
      create_sale st req now = (.ok sale, st') ∧
      sale.product_id = req.product_id ∧ sale.quantity = req.quantity ∧
      sale.total_price = req.total_price ∧ sale.sale_date = now ∧
      st'.sales = st.sales ++ [sale] ∧
      st'.products.find? (fun p => p.id == req.product_id)
        = some { P with quantity := P.quantity - req.quantity } := by
  have hlt : ¬ P.quantity < req.quantity := not_lt.mpr hq
  have hrun : create_sale st req now =
      (.ok ⟨st.nextSaleId, req.product_id, req.quantity, req.total_price, now⟩,
        { st with
          products := updateFirstProduct st.products req.product_id
            (fun p => { p with quantity := p.quantity - req.quantity })
          sales := st.sales ++
            [⟨st.nextSaleId, req.product_id, req.quantity, req.total_price, now⟩]
          nextSaleId := st.nextSaleId + 1 }) := by
    simp [create_sale, hP, hlt]
  refine ⟨_, _, hrun, rfl, rfl, rfl, rfl, rfl, ?_⟩
  exact find?_updateFirstProduct st.products req.product_id
    (fun p => { p with quantity := p.quantity - req.quantity }) (fun p => rfl) P hP

/-- C1 witness: the sample request for 4 Widgets against the sample store. -/
theorem create_sale_deducts_and_persists_witness :
    ∃ sale st',
      create_sale demoState demoReq demoNow = (.ok sale, st') ∧
      sale.product_id = demoReq.product_id ∧ sale.quantity = demoReq.quantity ∧
      sale.total_price = demoReq.total_price ∧ sale.sale_date = demoNow ∧
      st'.sales = demoState.sales ++ [sale] ∧
      st'.products.find? (fun p => p.id == demoReq.product_id)
        = some { (⟨1, "Widget", none, 100, 10⟩ : Product) with quantity := 10 - 4 } :=
  create_sale_deducts_and_persists demoState demoReq demoNow
    ⟨1, "Widget", none, 100, 10⟩ (by rfl) (by decide)

/-- C2: creating a sale and then deleting it (with no operation in
between) restores the product table — in particular the product's
quantity — to its pre-create value, and leaves the sales table as it was;
the restoration adds back the quantity stored on the Sale row. -/
theorem create_then_delete_roundtrip (st : InventoryState) (req : SaleCreate)
    (now : PyDateTime) (sale : Sale) (st₁ : InventoryState)
    (hfresh : saleIdsFresh st)
    (hcreate : create_sale st req now = (.ok sale, st₁)) :
    ∃ st₂,
      delete_sale st₁ sale.id = (.ok "Sale deleted and inventory restored", st₂) ∧
      st₂.products = st.products ∧ st₂.sales = st.sales := by
  rcases hfind : st.products.find? (fun p => p.id == req.product_id) with _ | P
  · simp [create_sale, hfind] at hcreate
  · by_cases hlt : P.quantity < req.quantity
    · simp [create_sale, hfind, hlt] at hcreate
    · have hrun : create_sale st req now =
          (.ok ⟨st.nextSaleId, req.product_id, req.quantity, req.total_price, now⟩,
            { st with
              products := updateFirstProduct st.products req.product_id
                (fun p => { p with quantity := p.quantity - req.quantity })
              sales := st.sales ++
                [⟨st.nextSaleId, req.product_id, req.quantity, req.total_price, now⟩]
              nextSaleId := st.nextSaleId + 1 }) := by
        simp [create_sale, hfind, hlt]
      rw [hrun] at hcreate
      have hsale : (⟨st.nextSaleId, req.product_id, req.quantity,
          req.total_price, now⟩ : Sale) = sale :=
        Except.ok.inj (congrArg Prod.fst hcreate)
      have hst : st₁ = { st with
          products := updateFirstProduct st.products req.product_id
            (fun p => { p with quantity := p.quantity - req.quantity })
          sales := st.sales ++
            [⟨st.nextSaleId, req.product_id, req.quantity, req.total_price, now⟩]
          nextSaleId := st.nextSaleId + 1 } :=
        (congrArg Prod.snd hcreate).symm
      subst hsale
      subst hst
      have hid : ∀ x ∈ st.sales, x.id ≠ st.nextSaleId :=
        fun x hx => Nat.ne_of_lt (hfresh x hx)
      have hfindSale : (st.sales ++
          [(⟨st.nextSaleId, req.product_id, req.quantity, req.total_price, now⟩ : Sale)]).find?
            (fun s => s.id == st.nextSaleId) = some
              ⟨st.nextSaleId, req.product_id, req.quantity, req.total_price, now⟩ := by
        rw [List.find?_append]
        have hleft : st.sales.find? (fun s => s.id == st.nextSaleId) = none := by
          rw [List.find?_eq_none]
          intro x hx
          simpa using hid x hx
        rw [hleft]
        simp
      have hfindProd : (updateFirstProduct st.products req.product_id
          (fun p => { p with quantity := p.quantity - req.quantity })).find?
            (fun p => p.id == req.product_id)
          = some { P with quantity := P.quantity - req.quantity } :=
        find?_updateFirstProduct st.products req.product_id
          (fun p => { p with quantity := p.quantity - req.quantity }) (fun p => rfl) P hfind
      refine ⟨{ st with
          products := updateFirstProduct (updateFirstProduct st.products req.product_id
              (fun p => { p with quantity := p.quantity - req.quantity })) req.product_id
            (fun p => { p with quantity := p.quantity + req.quantity })
          sales := removeFirstSale (st.sales ++
              [⟨st.nextSaleId, req.product_id, req.quantity, req.total_price, now⟩])
            st.nextSaleId
          nextSaleId := st.nextSaleId + 1 },
        by simp [delete_sale, hfindSale, hfindProd], ?_, ?_⟩
      · show updateFirstProduct (updateFirstProduct st.products _ _) _ _ = st.products
        rw [updateFirstProduct_comp st.products req.product_id
          (fun p => { p with quantity := p.quantity - req.quantity })
          (fun p => { p with quantity := p.quantity + req.quantity })
          (fun p => rfl)]
        apply updateFirstProduct_of_id
        intro p
        cases p
        simp
      · exact removeFirstSale_append st.sales _ hid

/-- C2 witness: create then delete on the sample store. -/
theorem create_then_delete_roundtrip_witness :
    ∃ st₂,
      delete_sale demoState1 demoSaleNew.id
        = (.ok "Sale deleted and inventory restored", st₂) ∧
      st₂.products = demoState.products ∧ st₂.sales = demoState.sales :=
  create_then_delete_roundtrip demoState demoReq demoNow demoSaleNew demoState1
    (by decide) (by rfl)

/-- C3: `create_sale` rejects a missing product with 404 "Product not
found" and short stock with 400 "Insufficient quantity..."; in both cases
the returned store is the unchanged input store. -/
theorem create_sale_rejections (st : InventoryState) (req : SaleCreate)
    (now : PyDateTime) :
    (st.products.find? (fun p => p.id == req.product_id) = none →
      create_sale st req now = (.error ⟨404, "Product not found"⟩, st)) ∧
    (∀ P, st.products.find? (fun p => p.id == req.product_id) = some P →
      P.quantity < req.quantity →
      create_sale st req now =
        (.error ⟨400, "Insufficient quantity. Available: " ++ toString P.quantity⟩, st)) := by
  constructor
  · intro h
    simp [create_sale, h]
  · intro P hP hlt
    simp [create_sale, hP, hlt]

/-- C3 witness: a request against product id 99 (absent) and a request
for 11 Widgets (only 10 in stock). -/
theorem create_sale_rejections_witness :
    create_sale demoState demoReqMissing demoNow
      = (.error ⟨404, "Product not found"⟩, demoState) ∧
    create_sale demoState demoReqBig demoNow
      = (.error ⟨400, "Insufficient quantity. Available: " ++ toString (10 : Int)⟩,
          demoState) :=
  ⟨(create_sale_rejections demoState demoReqMissing demoNow).1 (by rfl),
   (create_sale_rejections demoState demoReqBig demoNow).2
     ⟨1, "Widget", none, 100, 10⟩ (by rfl) (by decide)⟩

/-- C4: starting from a store in which every product quantity is
non-negative, `create_sale` (with request quantity ≥ 1) leaves every
product quantity non-negative: the stock check rejects before any
deduction could go below zero. -/
theorem create_sale_keeps_quantities_nonneg (st : InventoryState) (req : SaleCreate)
    (now : PyDateTime) (hnn : ∀ p ∈ st.products, 0 ≤ p.quantity)
    (hq1 : 1 ≤ req.quantity) :
    ∀ p ∈ (create_sale st req now).2.products, 0 ≤ p.quantity := by
  intro p hp
  rcases hfind : st.products.find? (fun x => x.id == req.product_id) with _ | P
  · have hsame : (create_sale st req now).2 = st := by simp [create_sale, hfind]
    rw [hsame] at hp
    exact hnn p hp
  · by_cases hlt : P.quantity < req.quantity
    · have hsame : (create_sale st req now).2 = st := by simp [create_sale, hfind, hlt]
      rw [hsame] at hp
      exact hnn p hp
    · have h2 : (create_sale st req now).2.products =
          updateFirstProduct st.products req.product_id
            (fun x => { x with quantity := x.quantity - req.quantity }) := by
        simp [create_sale, hfind, hlt]
      rw [h2] at hp
      rcases mem_updateFirstProduct _ _ _ p hp with h | ⟨r, hr, hrp⟩
      · exact hnn p h
      · rw [hfind] at hr
        have hrP : r = P := (Option.some.inj hr).symm
        subst hrP
        rw [hrp]
        simp only
        omega

/-- C4 witness: after the sample sale, the Widget row still has a
non-negative quantity. -/
theorem create_sale_keeps_quantities_nonneg_witness :
    (0 : Int) ≤ (Product.mk 1 "Widget" none 100 6).quantity :=
  create_sale_keeps_quantities_nonneg demoState demoReq demoNow
    (by decide) (by decide) ⟨1, "Widget", none, 100, 6⟩ (by decide)

/-- C5: `delete_sale` rejects a missing sale id with 404 "Sale not
found"; when the sale exists but its product row is gone, the restoration
is silently skipped — the products (and users) tables are untouched, only
the Sale row is removed, and the success message is returned. -/
theorem delete_sale_missing_cases (st : InventoryState) (sid : Nat) :
    (st.sales.find? (fun s => s.id == sid) = none →
      delete_sale st sid = (.error ⟨404, "Sale not found"⟩, st)) ∧
    (∀ sale, st.sales.find? (fun s => s.id == sid) = some sale →
      st.products.find? (fun p => p.id == sale.product_id) = none →
      delete_sale st sid =
        (.ok "Sale deleted and inventory restored",
          { st with sales := removeFirstSale st.sales sid })) := by
  constructor
  · intro h
    simp [delete_sale, h]
  · intro sale hs hp
    simp [delete_sale, hs, hp]

/-- C5 witness: a missing sale id on the sample store, and deleting the
dangling sale of the orphan store. -/
theorem delete_sale_missing_cases_witness :
    delete_sale demoState 42 = (.error ⟨404, "Sale not found"⟩, demoState) ∧
    delete_sale demoStateOrphan 7 =
      (.ok "Sale deleted and inventory restored",
        { demoStateOrphan with sales := removeFirstSale demoStateOrphan.sales 7 }) :=
  ⟨(delete_sale_missing_cases demoState 42).1 (by rfl),
   (delete_sale_missing_cases demoStateOrphan 7).2
     ⟨7, 99, 2, 50, ⟨2026, 10, 11, 8, 0, 0, 0⟩⟩ (by rfl) (by rfl)⟩

/-- C9: a login with an email that is stored but a password the verifier
rejects, and a login with an email that is not stored, fail with the
identical error — status 400, detail "Invalid credentials" — so the
response does not reveal whether the email exists. -/
theorem login_uniform_error (users : List User) (verify : String → String → Bool)
    (email password : String) :
    (users.find? (fun u => u.email == email) = none →
      login users verify email password = .error ⟨400, "Invalid credentials"⟩) ∧
    (∀ u, users.find? (fun u => u.email == email) = some u →
      verify password u.password_hash = false →
      login users verify email password = .error ⟨400, "Invalid credentials"⟩) := by
  constructor
  · intro h
    simp [login, h]
  · intro u hu hv
    simp [login, hu, hv]

/-- C9 witness: wrong password for the stored user, and an unknown email,
on the sample users table. -/
theorem login_uniform_error_witness :
    login demoUsers demoVerify "alice@example.com" "wrongpw"
      = .error ⟨400, "Invalid credentials"⟩ ∧
    login demoUsers demoVerify "bob@example.com" "HASH1"
      = .error ⟨400, "Invalid credentials"⟩ :=
  ⟨(login_uniform_error demoUsers demoVerify "alice@example.com" "wrongpw").2
     ⟨1, "alice", "alice@example.com", "HASH1", "admin"⟩ (by rfl) (by decide),
   (login_uniform_error demoUsers demoVerify "bob@example.com" "HASH1").1 (by rfl)⟩

/-- C10: a successful `create_sale` changes nothing but the quantity of
the referenced product and appends one Sale: users are unchanged, the
sales list is the old list plus the new Sale, the products list keeps its
length, every product keeps its id, name, description and price, and
every product whose id differs from the request's is untouched. -/
theorem create_sale_frame (st : InventoryState) (req : SaleCreate)
    (now : PyDateTime) (sale : Sale) (st' : InventoryState)
    (h : create_sale st req now = (.ok sale, st')) :
    st'.users = st.users ∧
    st'.sales = st.sales ++ [sale] ∧
    st'.products.length = st.products.length ∧
    ∀ i (hi : i < st.products.length) (hi' : i < st'.products.length),
      ((st'.products.get ⟨i, hi'⟩).id = (st.products.get ⟨i, hi⟩).id ∧
        (st'.products.get ⟨i, hi'⟩).name = (st.products.get ⟨i, hi⟩).name ∧
        (st'.products.get ⟨i, hi'⟩).description = (st.products.get ⟨i, hi⟩).description ∧
        (st'.products.get ⟨i, hi'⟩).price = (st.products.get ⟨i, hi⟩).price) ∧
      ((st.products.get ⟨i, hi⟩).id ≠ req.product_id →
        st'.products.get ⟨i, hi'⟩ = st.products.get ⟨i, hi⟩) := by
  rcases hfind : st.products.find? (fun p => p.id == req.product_id) with _ | P
  · simp [create_sale, hfind] at h
  · by_cases hlt : P.quantity < req.quantity
    · simp [create_sale, hfind, hlt] at h
    · have hrun : create_sale st req now =
          (.ok ⟨st.nextSaleId, req.product_id, req.quantity, req.total_price, now⟩,
            { st with
              products := updateFirstProduct st.products req.product_id
                (fun p => { p with quantity := p.quantity - req.quantity })
              sales := st.sales ++
                [⟨st.nextSaleId, req.product_id, req.quantity, req.total_price, now⟩]
              nextSaleId := st.nextSaleId + 1 }) := by
        simp [create_sale, hfind, hlt]
      rw [hrun] at h
      have hsale : (⟨st.nextSaleId, req.product_id, req.quantity,
          req.total_price, now⟩ : Sale) = sale :=
        Except.ok.inj (congrArg Prod.fst h)
      have hst : st' = { st with
          products := updateFirstProduct st.products req.product_id
            (fun p => { p with quantity := p.quantity - req.quantity })
          sales := st.sales ++
            [⟨st.nextSaleId, req.product_id, req.quantity, req.total_price, now⟩]
          nextSaleId := st.nextSaleId + 1 } :=
        (congrArg Prod.snd h).symm
      subst hst
      refine ⟨rfl, by rw [← hsale], updateFirstProduct_length .., ?_⟩
      intro i hi hi'
      rcases updateFirstProduct_get st.products req.product_id
          (fun p => { p with quantity := p.quantity - req.quantity }) i hi hi' with
        h1 | ⟨h1, h2⟩
      · exact ⟨by rw [h1]; exact ⟨rfl, rfl, rfl, rfl⟩, fun _ => h1⟩
      · exact ⟨by rw [h1]; exact ⟨rfl, rfl, rfl, rfl⟩, fun hne => absurd h2 hne⟩

/-- C10 witness: after the sample sale, the users table is unchanged and
the Gadget row (id 2 ≠ 1) is untouched. -/
theorem create_sale_frame_witness :
    demoState1.users = demoState.users ∧
    demoState1.products.get ⟨1, by decide⟩ = demoState.products.get ⟨1, by decide⟩ := by
  have h := create_sale_frame demoState demoReq demoNow demoSaleNew demoState1 (by rfl)
  exact ⟨h.1, (h.2.2.2 1 (by decide) (by decide)).2 (by decide)⟩

/-- C6: `daily_sales_chart` has exactly 7 entries, one per calendar day,
oldest first, covering today − 6 days through today (entry `j` starts at
`todayStart − (6 − j)` days); each entry's revenue sums `total_price`
over the Sales whose `sale_date` lies in the half-open window
`[day_start, day_start + 1 day)`, and a day with no sales reports 0. -/
theorem analytics_daily_chart (st : InventoryState) (now : PyDateTime) :
    (get_sales_analytics st now).daily_sales_chart.length = 7 ∧
    (∀ j (hj : j < (get_sales_analytics st now).daily_sales_chart.length),
      (get_sales_analytics st now).daily_sales_chart.get ⟨j, hj⟩ =
        { dayStart := (todayStart now).toAbs - (6 - (j : Int)) * usPerDay
          revenue := sumPrice (st.sales.filter (fun s =>
            decide ((todayStart now).toAbs - (6 - (j : Int)) * usPerDay
                ≤ s.sale_date.toAbs) &&
            decide (s.sale_date.toAbs <
              (todayStart now).toAbs - (6 - (j : Int)) * usPerDay + usPerDay))) }) ∧
    (∀ j (hj : j < (get_sales_analytics st now).daily_sales_chart.length),
      (∀ s ∈ st.sales,
        ¬((todayStart now).toAbs - (6 - (j : Int)) * usPerDay ≤ s.sale_date.toAbs ∧
          s.sale_date.toAbs <
            (todayStart now).toAbs - (6 - (j : Int)) * usPerDay + usPerDay)) →
      ((get_sales_analytics st now).daily_sales_chart.get ⟨j, hj⟩).revenue = 0) := by
  have hlen : (get_sales_analytics st now).daily_sales_chart.length = 7 := rfl
  have hget : ∀ j (hj : j < (get_sales_analytics st now).daily_sales_chart.length),
      (get_sales_analytics st now).daily_sales_chart.get ⟨j, hj⟩ =
        { dayStart := (todayStart now).toAbs - (6 - (j : Int)) * usPerDay
          revenue := sumPrice (st.sales.filter (fun s =>
            decide ((todayStart now).toAbs - (6 - (j : Int)) * usPerDay
                ≤ s.sale_date.toAbs) &&
            decide (s.sale_date.toAbs <
              (todayStart now).toAbs - (6 - (j : Int)) * usPerDay + usPerDay))) } := by
    intro j hj
    have hj7 : j < 7 := hlen ▸ hj
    interval_cases j <;> norm_num [get_sales_analytics, chartWindow]
  refine ⟨hlen, hget, ?_⟩
  intro j hj hnone
  rw [hget j hj]
  show sumPrice (st.sales.filter _) = 0
  have hnil : st.sales.filter (fun s =>
      decide ((todayStart now).toAbs - (6 - (j : Int)) * usPerDay ≤ s.sale_date.toAbs) &&
      decide (s.sale_date.toAbs <
        (todayStart now).toAbs - (6 - (j : Int)) * usPerDay + usPerDay)) = [] := by
    rw [List.filter_eq_nil_iff]
    intro s hs
    have := hnone s hs
    simp only [Bool.and_eq_true, decide_eq_true_eq]
    tauto
  rw [hnil]
  rfl

/-- C6 witness: the sample store and clock; the last entry is today's
window, and the oldest day (today − 6, no sales there) reports 0. -/
theorem analytics_daily_chart_witness :
    (get_sales_analytics demoState demoNow).daily_sales_chart.length = 7 ∧
    (get_sales_analytics demoState demoNow).daily_sales_chart.get ⟨6, by decide⟩ =
      { dayStart := (todayStart demoNow).toAbs - (6 - ((6 : Nat) : Int)) * usPerDay
        revenue := sumPrice (demoState.sales.filter (fun s =>
          decide ((todayStart demoNow).toAbs - (6 - ((6 : Nat) : Int)) * usPerDay
              ≤ s.sale_date.toAbs) &&
          decide (s.sale_date.toAbs <
            (todayStart demoNow).toAbs - (6 - ((6 : Nat) : Int)) * usPerDay + usPerDay))) } ∧
    ((get_sales_analytics demoState demoNow).daily_sales_chart.get ⟨0, by decide⟩).revenue
      = 0 := by
  have h := analytics_daily_chart demoState demoNow
  exact ⟨h.1, h.2.1 6 (by decide), h.2.2 0 (by decide) (by decide)⟩

/-- C7: `top_selling_product` is `null` exactly when there are no Sales;
otherwise it names the product id whose summed Sale quantity is maximal
over all Sales, ties going to the id seen first in storage order, with
its recorded total and its name resolved against the products table at
query time. -/
theorem analytics_top_product (st : InventoryState) (now : PyDateTime) :
    ((get_sales_analytics st now).top_selling_product = none ↔ st.sales = []) ∧
    (∀ tp, (get_sales_analytics st now).top_selling_product = some tp →
      tp.total_quantity_sold = totalQty st.sales tp.id ∧
      (∃ s ∈ st.sales, s.product_id = tp.id) ∧
      (∀ s ∈ st.sales, totalQty st.sales s.product_id ≤ tp.total_quantity_sold) ∧
      (∃ l₁ l₂, distinctPids st.sales = l₁ ++ tp.id :: l₂ ∧
        ∀ x ∈ l₁, totalQty st.sales x < tp.total_quantity_sold) ∧
      tp.name = resolveName st.products tp.id) := by
  constructor
  · show Option.map _ (topRow st.sales) = none ↔ _
    rw [Option.map_eq_none']
    rw [show topRow st.sales = (distinctPids st.sales).foldl (topStep st.sales) none from rfl]
    rw [topFold_none]
    simp [distinctPids_eq_nil_iff]
  · intro tp htp
    have htp' : ∃ r, topRow st.sales = some r ∧
        (⟨r.1, resolveName st.products r.1, r.2⟩ : TopProduct) = tp := by
      rcases Option.map_eq_some'.1 htp with ⟨r, hr, hrtp⟩
      exact ⟨r, hr, hrtp⟩
    rcases htp' with ⟨⟨p, q⟩, hr, hrtp⟩
    obtain ⟨hq, hmax, -, hsplit⟩ :=
      topFold_some st.sales (distinctPids st.sales) none p q (by simp) hr
    rcases hsplit with hbad | ⟨l₁, l₂, hsp, hbefore, -⟩
    · exact absurd hbad (by simp)
    · have hid : tp.id = p := by rw [← hrtp]
      have htot : tp.total_quantity_sold = q := by rw [← hrtp]
      have hname : tp.name = resolveName st.products p := by rw [← hrtp]
      have hpmem : p ∈ distinctPids st.sales := by
        rw [hsp]
        simp
      refine ⟨?_, ?_, ?_, ?_, ?_⟩
      · rw [htot, hid, ← hq]
      · rcases (mem_distinctPids st.sales p).1 hpmem with ⟨s, hs, hsp'⟩
        exact ⟨s, hs, by rw [hid, hsp']⟩
      · intro s hs
        rw [htot]
        exact hmax s.product_id ((mem_distinctPids st.sales s.product_id).2 ⟨s, hs, rfl⟩)
      · exact ⟨l₁, l₂, by rw [hid]; exact hsp, by rw [htot]; exact hbefore⟩
      · rw [hname, hid]

/-- C7 witness: in the sample store the Gadget (5 units) tops the Widget
(3 units); the Widget's total is bounded by the reported maximum. -/
theorem analytics_top_product_witness :
    totalQty demoState.sales 1 ≤ (5 : Int) := by
  have h := (analytics_top_product demoState demoNow).2 ⟨2, "Gadget", 5⟩ (by rfl)
  simpa using h.2.2.1 ⟨1, 1, 3, 300, ⟨2026, 10, 12, 9, 0, 0, 0⟩⟩ (by decide)

/-- C8: `daily_revenue` sums `total_price` over the Sales whose UTC
calendar day is today or later (i.e. `sale_date ≥` start of the current
UTC day), and `monthly_revenue` sums it over the Sales with `sale_date ≥`
day 1, 00:00:00 of the current UTC month; an empty filter sums to 0 by
construction of `sumPrice`. -/
theorem analytics_revenue_windows (st : InventoryState) (now : PyDateTime)
    (hsales : ∀ s ∈ st.sales, ValidClock s.sale_date) :
    (get_sales_analytics st now).daily_revenue =
      sumPrice (st.sales.filter (fun s =>
        decide (specDayNumber now ≤ specDayNumber s.sale_date))) ∧
    (get_sales_analytics st now).monthly_revenue =
      sumPrice (st.sales.filter (fun s =>
        decide ((specMonthStart now).toAbs ≤ s.sale_date.toAbs))) := by
  constructor
  · show sumPrice (st.sales.filter
        (fun s => decide ((todayStart now).toAbs ≤ s.sale_date.toAbs))) = _
    congr 1
    apply List.filter_congr
    intro s hs
    simp only [decide_eq_decide]
    exact le_todayStart_iff now s.sale_date (hsales s hs)
  · rfl

/-- C8 witness: the sample store at the sample clock. -/
theorem analytics_revenue_windows_witness :
    (get_sales_analytics demoState demoNow).daily_revenue =
      sumPrice (demoState.sales.filter (fun s =>
        decide (specDayNumber demoNow ≤ specDayNumber s.sale_date))) ∧
    (get_sales_analytics demoState demoNow).monthly_revenue =
      sumPrice (demoState.sales.filter (fun s =>
        decide ((specMonthStart demoNow).toAbs ≤ s.sale_date.toAbs))) :=
  analytics_revenue_windows demoState demoNow (by decide)

end SmartInventory
